import Mathlib

/-!
Verification of the gsElasticity time-integration and coupling core.

This file gives a shallow embedding of the incompressible Navier-Stokes time
integrator (file src/gsNsTimeIntegrator.hpp of the repository) and of the
staggered fluid-structure-interaction coupler loop
(src/examples/linElastTime2D_beam.cpp, second translation unit), and proves or
refutes the frozen claims about them.

Modelling conventions:
* real scalars of the C++ code are modelled as rationals where the code only
  adds, multiplies and compares them, and as real numbers where transcendental
  functions (cosine) appear;
* a degree-of-freedom vector (gsMatrix used as a column vector) is a list of
  rationals; a sparse matrix is a total function from index pairs to rationals
  (entries outside the dimensions of the modelled block are irrelevant and
  never read by the translated code);
* the external collaborators that the spec puts out of scope (element-level
  assembly, construction of a physical field from a solution vector, the
  direct linear solve) become oracle fields of an environment structure NsEnv;
  the integrator code is translated statement by statement against them;
* the C++ member function gsNsTimeIntegrator::initialize is modelled by the
  function initMembers below (the source name cannot be used here), and the
  member flag named initialized in the source is modelled by the field inited.
-/

namespace GsElasticity

/-- A degree-of-freedom (column) vector: a list of rationals. -/
abbrev Vec := List ℚ

/-- A matrix: a total function from (row, column) to the entry. -/
abbrev Mat := ℕ → ℕ → ℚ

/-- Scalar times vector, entrywise (gsMatrix scalar multiplication). -/
def vecScale (c : ℚ) (v : Vec) : Vec := v.map (fun x => c * x)

/-- Entrywise difference of two vectors (gsMatrix subtraction). -/
def vecSub (v w : Vec) : Vec := List.zipWith (fun x y => x - y) v w

/-- Entrywise sum of two vectors (gsMatrix addition). -/
def vecAdd (v w : Vec) : Vec := List.zipWith (fun x y => x + y) v w

/-- Scalar times matrix, entrywise. -/
def scaleMat (c : ℚ) (A : Mat) : Mat := fun i j => c * A i j

/-- Map a function over a list together with the position of each element. -/
def mapIdxQ (f : ℕ → ℚ → ℚ) : ℕ → List ℚ → List ℚ
  | _, [] => []
  | i, x :: xs => f i x :: mapIdxQ f (i + 1) xs

/-- Row i of the product of the top-left n-column block of A with the first
n rows of vector v: models expressions of the form
matrix().block(0,0,n,n) * vector.middleRows(0,n). -/
def dotBlock (A : Mat) (n : ℕ) (v : Vec) (i : ℕ) : ℚ :=
  Finset.sum (Finset.range n) (fun j => A i j * v.getD j 0)

/-- Subtract the indexed family w from the first n entries of v:
models rhs.middleRows(0,n) -= expr. -/
def subRangeF (n : ℕ) (v : Vec) (w : ℕ → ℚ) : Vec :=
  mapIdxQ (fun i x => if i < n then x - w i else x) 0 v

/-- Add the indexed family w to the first n entries of v:
models rhs.middleRows(0,n) += expr. -/
def addRangeF (n : ℕ) (v : Vec) (w : ℕ → ℚ) : Vec :=
  mapIdxQ (fun i x => if i < n then x + w i else x) 0 v

/-- Time integration scheme option (enum time_integration of the source);
values other than the two handled by makeTimeStep are collapsed into one. -/
inductive TimeScheme where
  | implicit_linear
  | implicit_nonlinear
  | other
deriving DecidableEq

/-- Assembly mode of the Navier-Stokes stiffness assembler
(option Assembly, enum ns_assembly: Oseen or Newton semi-linearization). -/
inductive AssemblyMode where
  | ossen
  | newton_next
deriving DecidableEq

/-- The external collaborators of gsNsTimeIntegrator, out of scope per the
spec: the discretization-dependent assembly oracles of the stiffness
assembler (gsNsAssembler), the constant mass matrix and the elimination
right-hand side of the mass assembler (gsMassAssembler), the opaque direct
linear solve, the option values read from the option lists, and the
ALE coupling data (mesh-velocity field and patch correspondence). -/
structure NsEnv where
  numDofs : ℕ
  numDofsVel : ℕ
  theta : ℚ
  scheme : TimeScheme
  newtonIters : ℕ
  massMatrix : Mat
  massElimRhs : List Vec → Vec
  constructVel : Vec → List Vec → List Vec
  constructPres : Vec → List Vec → List Vec
  stiffMatAt : AssemblyMode → List Vec → List Vec → Mat
  stiffRhsAt : AssemblyMode → List Vec → List Vec → Vec
  linSolve : Mat → Vec → Vec
  aleVel : List Vec
  patchesALE : List (ℕ × ℕ)

/-- The mutable state of a gsNsTimeIntegrator together with the mutable
state of its two assemblers: solution vectors, step data, fixed DoFs, the
cached matrix/rhs of the stiffness and mass assemblers, the assembled
system, and the checkpoint slots written by saveState. -/
structure NsState where
  solVector : Vec
  oldSolVector : Vec
  tStep : ℚ
  oldTimeStep : ℚ
  ddof : List Vec
  flagALE : Bool
  inited : Bool
  hasSavedState : Bool
  numIters : ℕ
  assemblyMode : AssemblyMode
  stiffMatrix : Mat
  stiffRhs : Vec
  stiffFixedDofs : List Vec
  massRhs : Vec
  massFixedDofs : List Vec
  massAssembled : Bool
  constRHS : Vec
  systemMatrix : Mat
  systemRhs : Vec
  velVecSaved : Vec
  oldVecSaved : Vec
  massRhsSaved : Vec
  stiffRhsSaved : Vec
  stiffMatrixSaved : Mat
  ddofsSaved : List Vec

/-- The temporary block of the matrix assembly (lines 125-128 of
gsNsTimeIntegrator.hpp): the top-left numDofsVel x numDofsVel block of the
scaled stiffness matrix S, multiplied by theta - 1, plus the mass matrix,
conservatively resized (zero-filled) to numDofs rows. -/
def tempVelocityBlock (S M : Mat) (theta : ℚ) (nv : ℕ) : Mat :=
  fun i j => if i < nv ∧ j < nv then (theta - 1) * S i j + M i j else 0

/-- The final system matrix (lines 121-130 of gsNsTimeIntegrator.hpp):
S plus, on its first numDofsVel columns, the temporary velocity block;
here S is the time-step-scaled stiffness matrix. -/
def systemMatrixOf (S M : Mat) (theta : ℚ) (nv : ℕ) : Mat :=
  fun i j => S i j + (if j < nv then tempVelocityBlock S M theta nv i j else 0)

/-- One step of the ALE mesh-velocity subtraction loop: on the source patch
of the pair, subtract the mesh-velocity coefficients of the corresponding
ALE patch (line 111 / line 185 of gsNsTimeIntegrator.hpp). -/
def alePatchSub (ale : List Vec) (vels : List Vec) (pr : ℕ × ℕ) : List Vec :=
  vels.set pr.1 (vecSub (vels.getD pr.1 []) (ale.getD pr.2 []))

/-- The ALE correction of the constructed velocity field: when the ALE flag
is set, subtract the mesh velocity on every patch pair of the
correspondence list (lines 109-111 / 183-185 of gsNsTimeIntegrator.hpp). -/
def applyALE (flag : Bool) (links : List (ℕ × ℕ)) (ale vels : List Vec) : List Vec :=
  if flag then links.foldl (alePatchSub ale) vels else vels

/-- The member function gsNsTimeIntegrator::assemble (lines 174-199):
construct the physical velocity and pressure from the trial solution vector
and the fixed DoFs, apply the ALE correction to the velocity, assemble the
stiffness system at the corrected fields, then form the blended system
matrix and the right-hand side dt * theta * stiffRhs + constRHS. -/
def assembleTI (env : NsEnv) (s : NsState) (solutionVector : Vec) (fixedDoFs : List Vec) :
    NsState :=
  let vel := applyALE s.flagALE env.patchesALE env.aleVel
    (env.constructVel solutionVector fixedDoFs)
  let pres := env.constructPres solutionVector fixedDoFs
  let A := env.stiffMatAt s.assemblyMode vel pres
  let F := env.stiffRhsAt s.assemblyMode vel pres
  { s with
    stiffMatrix := A
    stiffRhs := F
    systemMatrix := systemMatrixOf (scaleMat s.tStep A) env.massMatrix env.theta env.numDofsVel
    systemRhs := vecAdd (vecScale (s.tStep * env.theta) F) s.constRHS }

/-- The member function gsNsTimeIntegrator::initialize (lines 58-71), named
initMembers here: requires the stored solution vector to have exactly
numDofs rows (GISMO_ENSURE, modelled as the none case), assembles the
stiffness system at the current solution, passes the fixed DoFs to the mass
assembler and assembles the constant mass form if not yet assembled (plain
mass assembly leaves a zero right-hand side, see gsMassAssembler::assemble),
and seeds the IMEX data: oldSolVector is the current solution and
oldTimeStep is one. -/
def initMembers (env : NsEnv) (s : NsState) : Option NsState :=
  if s.solVector.length = env.numDofs then
    some { s with
      stiffMatrix := env.stiffMatAt s.assemblyMode
        (env.constructVel s.solVector s.ddof) (env.constructPres s.solVector s.ddof)
      stiffRhs := env.stiffRhsAt s.assemblyMode
        (env.constructVel s.solVector s.ddof) (env.constructPres s.solVector s.ddof)
      massFixedDofs := s.ddof
      massRhs := if s.massAssembled then s.massRhs else List.replicate env.numDofsVel 0
      massAssembled := true
      oldSolVector := s.solVector
      oldTimeStep := 1
      inited := true }
  else none

/-- The implicit-linear (IMEX) scheme (gsNsTimeIntegrator::implicitLinear,
lines 87-144), translated statement by statement: set the Oseen assembly
mode; build the constant part of the right-hand side from the cached
stiffness system and the previous mass right-hand side; construct the
velocity at the linearly extrapolated solution, apply the ALE correction,
and assemble the stiffness there; refresh the mass elimination right-hand
side from the current fixed DoFs; finish the right-hand side; form the
blended system matrix; record oldSolVector, oldTimeStep, the fixed DoFs and
the iteration count one; finally solve for the new solution vector. -/
def implicitLinear (env : NsEnv) (s0 : NsState) : NsState :=
  let theta := env.theta
  let nv := env.numDofsVel
  let s := { s0 with assemblyMode := AssemblyMode.ossen }
  let r0 := vecScale (s.tStep * (1 - theta)) s.stiffRhs
  let r1 := subRangeF nv r0 (fun i => s.tStep * (1 - theta) * dotBlock s.stiffMatrix nv s.solVector i)
  let r2 := addRangeF nv r1 (dotBlock env.massMatrix nv s.solVector)
  let r3 := subRangeF nv r2 (fun i => s.massRhs.getD i 0)
  let extrap := List.zipWith
    (fun x y => x + s.tStep / s.oldTimeStep * (x - y)) s.solVector s.oldSolVector
  let vel := applyALE s.flagALE env.patchesALE env.aleVel
    (env.constructVel extrap s.stiffFixedDofs)
  let pres := env.constructPres extrap s.stiffFixedDofs
  let A := env.stiffMatAt AssemblyMode.ossen vel pres
  let F := env.stiffRhsAt AssemblyMode.ossen vel pres
  let mrhs := env.massElimRhs s.stiffFixedDofs
  let r4 := vecAdd r3 (vecScale (s.tStep * theta) F)
  let r5 := addRangeF nv r4 (fun i => mrhs.getD i 0)
  let K := systemMatrixOf (scaleMat s.tStep A) env.massMatrix theta nv
  { s with
    stiffMatrix := A
    stiffRhs := F
    massFixedDofs := s.stiffFixedDofs
    massRhs := mrhs
    systemMatrix := K
    systemRhs := r5
    oldSolVector := s.solVector
    oldTimeStep := s.tStep
    ddof := s.stiffFixedDofs
    numIters := 1
    solVector := env.linSolve K r5 }

/-- Modelled from the spec: the nonlinear solver gsIterative (its source
file is not among the given sources) repeatedly (a) assembles the
fully-discrete system at the current trial solution through the time
integrator's own assemble capability, (b) solves the linear system, and
(c) takes the solution as the next trial (iteration type next). The
iteration count is supplied by the environment. -/
def newtonLoop (env : NsEnv) : ℕ → NsState → Vec → NsState × Vec
  | 0, s, trial => (s, trial)
  | k + 1, s, trial =>
    let s1 := assembleTI env s trial s.ddof
    newtonLoop env k s1 (env.linSolve s1.systemMatrix s1.systemRhs)

/-- The constant (previous-step) part of the right-hand side of the
implicit-nonlinear scheme (lines 153-159 of gsNsTimeIntegrator.hpp): built
from the cached stiffness system, the mass matrix, the current solution,
the previous mass right-hand side, and the refreshed mass elimination
right-hand side at the current fixed DoFs. -/
def implicitNonlinearConstRHS (env : NsEnv) (s : NsState) : Vec :=
  let theta := env.theta
  let nv := env.numDofsVel
  let c0 := vecScale (s.tStep * (1 - theta)) s.stiffRhs
  let c1 := subRangeF nv c0 (fun i => s.tStep * (1 - theta) * dotBlock s.stiffMatrix nv s.solVector i)
  let c2 := addRangeF nv c1 (dotBlock env.massMatrix nv s.solVector)
  let c3 := subRangeF nv c2 (fun i => s.massRhs.getD i 0)
  addRangeF nv c3 (fun i => (env.massElimRhs s.stiffFixedDofs).getD i 0)

/-- The implicit-nonlinear scheme (gsNsTimeIntegrator::implicitNonlinear,
lines 146-172): set the Newton assembly mode, compute constRHS once, refresh
the mass assembler's fixed DoFs and elimination right-hand side, run the
nonlinear solver seeded with the current solution vector and fixed DoFs,
then store its solution, the fixed DoFs and the iteration count. -/
def implicitNonlinear (env : NsEnv) (s0 : NsState) : NsState :=
  let s := { s0 with assemblyMode := AssemblyMode.newton_next }
  let s1 := { s with
    constRHS := implicitNonlinearConstRHS env s
    massFixedDofs := s.stiffFixedDofs
    massRhs := env.massElimRhs s.stiffFixedDofs }
  let res := newtonLoop env env.newtonIters s1 s.solVector
  { res.1 with
    solVector := res.2
    ddof := res.1.stiffFixedDofs
    numIters := env.newtonIters }

/-- gsNsTimeIntegrator::makeTimeStep (lines 73-85): initialize on first use
(which can fail), record the time step and the ALE flag, then run the
scheme selected by the option value. -/
def makeTimeStep (env : NsEnv) (timeStep : ℚ) (ale : Bool) (s : NsState) : Option NsState :=
  match (if s.inited then some s else initMembers env s) with
  | none => none
  | some t =>
    let t1 := { t with tStep := timeStep, flagALE := ale }
    some (match env.scheme with
      | TimeScheme.implicit_nonlinear => implicitNonlinear env t1
      | TimeScheme.implicit_linear => implicitLinear env t1
      | TimeScheme.other => t1)

/-- gsNsTimeIntegrator::saveState (lines 201-214): initialize on first use
(which can fail), then copy the current solution vector, the previous
solution vector, the mass right-hand side, the stiffness right-hand side and
matrix, and the fixed DoFs into the checkpoint slots, and raise the
checkpoint flag. -/
def saveState (env : NsEnv) (s : NsState) : Option NsState :=
  match (if s.inited then some s else initMembers env s) with
  | none => none
  | some t =>
    some { t with
      velVecSaved := t.solVector
      oldVecSaved := t.oldSolVector
      massRhsSaved := t.massRhs
      stiffRhsSaved := t.stiffRhs
      stiffMatrixSaved := t.stiffMatrix
      ddofsSaved := t.ddof
      hasSavedState := true }

/-- gsNsTimeIntegrator::recoverState (lines 216-226): fails (GISMO_ENSURE,
modelled as none) when no checkpoint exists; otherwise restores the
solution vectors, the assembler caches and the fixed DoFs from the
checkpoint slots. The checkpoint flag is left untouched by the source. -/
def recoverState (s : NsState) : Option NsState :=
  if s.hasSavedState then
    some { s with
      solVector := s.velVecSaved
      oldSolVector := s.oldVecSaved
      massRhs := s.massRhsSaved
      stiffMatrix := s.stiffMatrixSaved
      stiffRhs := s.stiffRhsSaved
      ddof := s.ddofsSaved }
  else none

/-- The effective step size selected by the coupler (line 390 of
linElastTime2D_beam.cpp, second translation unit): the coarse warm-up value
one tenth while warming up before simulation time two, the configured fine
step otherwise. -/
def effStep (warmUp : Bool) (simTime timeStep : ℚ) : ℚ :=
  if warmUp = true ∧ simTime < 2 then 1 / 10 else timeStep

/-- Observable events of one run of the coupler loop, tagged with the macro
iteration index: the mesh-validity check (with its outcome), the structural
step, the mesh-motion solve (with the validity of the solution it produces
and the step size it uses), the fluid step (with its step size), and the
halt on a detected mesh breakdown. -/
inductive CEvent where
  | check (i : ℕ) (valid : Bool)
  | beam (i : ℕ) (t : ℚ)
  | aleSolve (i : ℕ) (valid : Bool) (t : ℚ)
  | fluid (i : ℕ) (t : ℚ)
  | halt (i : ℕ)
deriving DecidableEq

/-- The macro iteration index carried by a coupler event. -/
def CEvent.idx : CEvent → ℕ
  | CEvent.check i _ => i
  | CEvent.beam i _ => i
  | CEvent.aleSolve i _ _ => i
  | CEvent.fluid i _ => i
  | CEvent.halt i => i

/-- The event trace of the staggered coupler loop (lines 383-448 of
linElastTime2D_beam.cpp, second translation unit). Arguments: the time
span and configured time step, the warm-up flag, an oracle aleValid giving
for each iteration whether the mesh-motion solve of that iteration produces
a valid (non-self-intersecting, checkSolution returning minus one) solution,
a fuel bound on the number of loop tests, the current iteration index, the
current simulation time, and the validity of the current mesh-motion
solution dispALE (the one produced by the previous iteration). Each
iteration first checks the current solution and breaks on invalidity;
otherwise it runs the structural step, the mesh-motion solve and the fluid
step with the common effective step size, then advances the simulation
time. The mesh-validity semantics of checkSolution itself (sign of the
Jacobian determinant at sample points) is out of the given sources and is
abstracted into the validity bit. -/
def couplerTrace (timeSpan timeStep : ℚ) (warmUp : Bool) (aleValid : ℕ → Bool) :
    ℕ → ℕ → ℚ → Bool → List CEvent
  | 0, _, _, _ => []
  | fuel + 1, i, simTime, curValid =>
    if simTime < timeSpan then
      CEvent.check i curValid ::
        (if curValid then
          CEvent.beam i (effStep warmUp simTime timeStep) ::
          CEvent.aleSolve i (aleValid i) (effStep warmUp simTime timeStep) ::
          CEvent.fluid i (effStep warmUp simTime timeStep) ::
          couplerTrace timeSpan timeStep warmUp aleValid fuel (i + 1)
            (simTime + effStep warmUp simTime timeStep) (aleValid i)
        else [CEvent.halt i])
    else []

/-- The cosine ramp factor of the inflow boundary data as a function of its
time argument: one half of one minus the cosine of pi times the argument
over two (line 393 of linElastTime2D_beam.cpp, second translation unit). -/
noncomputable def inflowRampFactor (t : ℝ) : ℝ :=
  (1 - Real.cos (Real.pi * t / 2)) / 2

/-- The multiplier actually applied to the saved inflow fixed DoFs in the
iteration starting at the given simulation time with the given step size:
the ramp factor evaluated at the end-of-step time simTime + tStep
(line 393 of the source: cos(M_PI*(simTime+tStep)/2)). -/
noncomputable def appliedInflowScale (simTime tStep : ℝ) : ℝ :=
  inflowRampFactor (simTime + tStep)

/-- The inflow boundary update of one coupler iteration: while the
simulation time is below two the inflow fixed DoFs are overwritten with the
saved values times the applied multiplier (returned here); afterwards no
update is made (lines 392-393 of the source). -/
noncomputable def inflowBCApplied (simTime tStep : ℝ) : Option ℝ :=
  if simTime < 2 then some (appliedInflowScale simTime tStep) else none

/-! ### Auxiliary concrete instances and preservation lemmas -/

/-- The zero matrix, used to build concrete instances. -/
def zeroMat : Mat := fun _ _ => 0

/-- A concrete one-degree-of-freedom environment with trivial oracles,
parametrized by the scheme option. -/
def sampleEnv (sch : TimeScheme) : NsEnv where
  numDofs := 1
  numDofsVel := 1
  theta := 1 / 2
  scheme := sch
  newtonIters := 1
  massMatrix := zeroMat
  massElimRhs := fun _ => [0]
  constructVel := fun _ _ => []
  constructPres := fun _ _ => []
  stiffMatAt := fun _ _ _ => zeroMat
  stiffRhsAt := fun _ _ _ => [0]
  linSolve := fun _ _ => [0]
  aleVel := []
  patchesALE := []

/-- A concrete state of an already initialized integrator with one degree
of freedom, current solution five and previous solution seven. -/
def sampleState : NsState where
  solVector := [5]
  oldSolVector := [7]
  tStep := 1
  oldTimeStep := 1
  ddof := []
  flagALE := false
  inited := true
  hasSavedState := false
  numIters := 0
  assemblyMode := AssemblyMode.ossen
  stiffMatrix := zeroMat
  stiffRhs := [0]
  stiffFixedDofs := []
  massRhs := [0]
  massFixedDofs := []
  massAssembled := true
  constRHS := [0]
  systemMatrix := zeroMat
  systemRhs := [0]
  velVecSaved := []
  oldVecSaved := []
  massRhsSaved := []
  stiffRhsSaved := []
  stiffMatrixSaved := zeroMat
  ddofsSaved := []

/-- The assemble member function leaves the initialization flag, the IMEX
data and the constant right-hand side untouched. -/
lemma assembleTI_keeps (env : NsEnv) (s : NsState) (sol : Vec) (fd : List Vec) :
    (assembleTI env s sol fd).inited = s.inited ∧
    (assembleTI env s sol fd).oldSolVector = s.oldSolVector ∧
    (assembleTI env s sol fd).oldTimeStep = s.oldTimeStep ∧
    (assembleTI env s sol fd).constRHS = s.constRHS :=
  ⟨rfl, rfl, rfl, rfl⟩

/-- The nonlinear-solver loop leaves the initialization flag, the IMEX data
and the constant right-hand side of the integrator state untouched. -/
lemma newtonLoop_keeps (env : NsEnv) :
    ∀ (k : ℕ) (s : NsState) (trial : Vec),
      ((newtonLoop env k s trial).1).inited = s.inited ∧
      ((newtonLoop env k s trial).1).oldSolVector = s.oldSolVector ∧
      ((newtonLoop env k s trial).1).oldTimeStep = s.oldTimeStep ∧
      ((newtonLoop env k s trial).1).constRHS = s.constRHS := by
  intro k
  induction k with
  | zero => exact fun s trial => ⟨rfl, rfl, rfl, rfl⟩
  | succ n ih => exact fun s trial => ih (assembleTI env s trial s.ddof) _

/-- The implicit-nonlinear scheme leaves the initialization flag and the
IMEX extrapolation data untouched. -/
lemma implicitNonlinear_keeps (env : NsEnv) (s : NsState) :
    (implicitNonlinear env s).inited = s.inited ∧
    (implicitNonlinear env s).oldSolVector = s.oldSolVector ∧
    (implicitNonlinear env s).oldTimeStep = s.oldTimeStep := by
  refine ⟨?_, ?_, ?_⟩
  · exact (newtonLoop_keeps env env.newtonIters _ s.solVector).1
  · exact (newtonLoop_keeps env env.newtonIters _ s.solVector).2.1
  · exact (newtonLoop_keeps env env.newtonIters _ s.solVector).2.2.1

/-- The implicit-linear scheme leaves the initialization flag untouched. -/
lemma implicitLinear_inited (env : NsEnv) (s : NsState) :
    (implicitLinear env s).inited = s.inited := rfl

/-! ### Claim C2 -/

/-- Claim C2: for every initialized integrator state, saveState followed
immediately by recoverState restores the current solution vector, the
previous solution vector, the fixed DoFs, and the cached stiffness matrix,
stiffness right-hand side and mass right-hand side exactly to the values
they had at the saveState call. -/
theorem claim2_saveRecover_roundTrip (env : NsEnv) (s : NsState) (h : s.inited = true) :
    ((saveState env s).bind recoverState).map (fun r => r.solVector) = some s.solVector ∧
    ((saveState env s).bind recoverState).map (fun r => r.oldSolVector) = some s.oldSolVector ∧
    ((saveState env s).bind recoverState).map (fun r => r.ddof) = some s.ddof ∧
    ((saveState env s).bind recoverState).map (fun r => r.stiffMatrix) = some s.stiffMatrix ∧
    ((saveState env s).bind recoverState).map (fun r => r.stiffRhs) = some s.stiffRhs ∧
    ((saveState env s).bind recoverState).map (fun r => r.massRhs) = some s.massRhs := by
  simp [saveState, recoverState, h]

/-- Witness for claim C2 at the concrete sample state. -/
theorem claim2_witness :
    sampleState.inited = true ∧
    (((saveState (sampleEnv TimeScheme.implicit_linear) sampleState).bind recoverState).map
        (fun r => r.solVector) = some sampleState.solVector ∧
      ((saveState (sampleEnv TimeScheme.implicit_linear) sampleState).bind recoverState).map
        (fun r => r.oldSolVector) = some sampleState.oldSolVector ∧
      ((saveState (sampleEnv TimeScheme.implicit_linear) sampleState).bind recoverState).map
        (fun r => r.ddof) = some sampleState.ddof ∧
      ((saveState (sampleEnv TimeScheme.implicit_linear) sampleState).bind recoverState).map
        (fun r => r.stiffMatrix) = some sampleState.stiffMatrix ∧
      ((saveState (sampleEnv TimeScheme.implicit_linear) sampleState).bind recoverState).map
        (fun r => r.stiffRhs) = some sampleState.stiffRhs ∧
      ((saveState (sampleEnv TimeScheme.implicit_linear) sampleState).bind recoverState).map
        (fun r => r.massRhs) = some sampleState.massRhs) :=
  ⟨rfl, claim2_saveRecover_roundTrip (sampleEnv TimeScheme.implicit_linear) sampleState rfl⟩

/-! ### Claim C3 -/

/-- Counterexample to claim C3: the checkpoint is not consumed
destructively. After a saveState and one recoverState, a second
recoverState without an intervening saveState succeeds (the source of
recoverState never clears the checkpoint flag), contradicting the claim
that it fails. -/
theorem claim3_counterexample :
    (((saveState (sampleEnv TimeScheme.implicit_linear) sampleState).bind
        recoverState).bind recoverState).isSome = true := by
  rfl

/-- Claim C3 as amended: recoverState fails exactly when no checkpoint
exists (no prior saveState), but a checkpoint is not consumed by
recoverState: the checkpoint flag survives the call, so any number of
further recoverState calls succeed without an intervening saveState. -/
theorem claim3_amended (s : NsState) :
    (s.hasSavedState = false → recoverState s = none) ∧
    (s.hasSavedState = true →
      (recoverState s).map (fun r => r.hasSavedState) = some true) := by
  constructor <;> intro h <;> simp [recoverState, h]

/-- Witness for the amended claim C3: at concrete states, recoverState with
no checkpoint fails, and recoverState with a checkpoint keeps the
checkpoint flag raised. -/
theorem claim3_witness :
    recoverState sampleState = none ∧
    (recoverState { sampleState with hasSavedState := true }).map
      (fun r => r.hasSavedState) = some true :=
  ⟨(claim3_amended sampleState).1 rfl,
   (claim3_amended { sampleState with hasSavedState := true }).2 rfl⟩

/-! ### Claim C10 -/

/-- Claim C10: makeTimeStep and saveState on a not yet initialized
integrator do not fail outright: each first performs the initialization
implicitly and then proceeds; the call fails exactly when the stored
solution vector's length differs from the assembler's free-DoF count, and
on success the integrator is initialized. -/
theorem claim10_lazyInit (env : NsEnv) (dt : ℚ) (ale : Bool) (s : NsState)
    (h : s.inited = false) :
    ((makeTimeStep env dt ale s).isSome ↔ s.solVector.length = env.numDofs) ∧
    ((saveState env s).isSome ↔ s.solVector.length = env.numDofs) ∧
    (makeTimeStep env dt ale s).map (fun r => r.inited) =
      (makeTimeStep env dt ale s).map (fun _ => true) ∧
    (saveState env s).map (fun r => r.inited) =
      (saveState env s).map (fun _ => true) := by
  by_cases hlen : s.solVector.length = env.numDofs
  · refine ⟨?_, ?_, ?_, ?_⟩
    · simp [makeTimeStep, initMembers, h, hlen]
    · simp [saveState, initMembers, h, hlen]
    · simp only [makeTimeStep, initMembers, h, hlen]
      cases hs : env.scheme <;>
        simp [hs, implicitLinear_inited, (implicitNonlinear_keeps _ _).1]
    · simp [saveState, initMembers, h, hlen]
  · refine ⟨?_, ?_, ?_, ?_⟩ <;>
      simp [makeTimeStep, saveState, initMembers, h, hlen]

/-- Witness for claim C10 at a concrete uninitialized state whose solution
vector length matches the free-DoF count. -/
theorem claim10_witness :
    ({ sampleState with inited := false } : NsState).inited = false ∧
    (((makeTimeStep (sampleEnv TimeScheme.implicit_linear) 1 false
        { sampleState with inited := false }).isSome ↔
      ({ sampleState with inited := false } : NsState).solVector.length =
        (sampleEnv TimeScheme.implicit_linear).numDofs) ∧
    ((saveState (sampleEnv TimeScheme.implicit_linear)
        { sampleState with inited := false }).isSome ↔
      ({ sampleState with inited := false } : NsState).solVector.length =
        (sampleEnv TimeScheme.implicit_linear).numDofs) ∧
    (makeTimeStep (sampleEnv TimeScheme.implicit_linear) 1 false
        { sampleState with inited := false }).map (fun r => r.inited) =
      (makeTimeStep (sampleEnv TimeScheme.implicit_linear) 1 false
        { sampleState with inited := false }).map (fun _ => true) ∧
    (saveState (sampleEnv TimeScheme.implicit_linear)
        { sampleState with inited := false }).map (fun r => r.inited) =
      (saveState (sampleEnv TimeScheme.implicit_linear)
        { sampleState with inited := false }).map (fun _ => true)) :=
  ⟨rfl, claim10_lazyInit (sampleEnv TimeScheme.implicit_linear) 1 false
    { sampleState with inited := false } rfl⟩

/-! ### Claim C4 -/

/-- The implicit-linear scheme records the pre-step solution vector as the
previous solution and the current step size as the previous step size. -/
lemma implicitLinear_imexData (env : NsEnv) (s : NsState) :
    (implicitLinear env s).oldSolVector = s.solVector ∧
    (implicitLinear env s).oldTimeStep = s.tStep :=
  ⟨rfl, rfl⟩

/-- Counterexample to claim C4: a completed makeTimeStep call under the
implicit-nonlinear scheme, with step size two, on an initialized state
whose previous solution is the vector seven and previous step size is one:
the claim predicts that afterwards the previous solution vector equals the
pre-step solution (the vector five) and the previous step size equals two,
but the code leaves both untouched at seven and one, because
implicitNonlinear never updates oldSolVector and oldTimeStep. -/
theorem claim4_counterexample :
    (makeTimeStep (sampleEnv TimeScheme.implicit_nonlinear) 2 false sampleState).map
      (fun r => (r.oldSolVector, r.oldTimeStep)) = some ([7], 1) ∧
    (([7], 1) : Vec × ℚ) ≠ (([5], 2) : Vec × ℚ) := by
  exact ⟨rfl, by decide⟩

/-- Claim C4 as amended: after a completed makeTimeStep(dt) call on an
initialized integrator, under the implicit-linear scheme previousFreeDofs
(oldSolVector) equals the pre-step solution vector and previousStepSize
(oldTimeStep) equals dt; under the implicit-nonlinear scheme neither is
updated — both keep the values they had before the call, so only the
implicit-linear extrapolation seed is guaranteed to use the data of the
just-completed step. -/
theorem claim4_amended (env : NsEnv) (dt : ℚ) (ale : Bool) (s : NsState)
    (h : s.inited = true) :
    (makeTimeStep env dt ale s).map (fun r => (r.oldSolVector, r.oldTimeStep)) =
      some (match env.scheme with
        | TimeScheme.implicit_linear => (s.solVector, dt)
        | TimeScheme.implicit_nonlinear => (s.oldSolVector, s.oldTimeStep)
        | TimeScheme.other => (s.oldSolVector, s.oldTimeStep)) := by
  cases hs : env.scheme <;>
    simp [makeTimeStep, h, hs, implicitLinear_imexData,
      (implicitNonlinear_keeps _ _).2.1, (implicitNonlinear_keeps _ _).2.2]

/-- Witness for the amended claim C4 at a concrete initialized state under
the implicit-nonlinear scheme. -/
theorem claim4_witness :
    sampleState.inited = true ∧
    (makeTimeStep (sampleEnv TimeScheme.implicit_nonlinear) 2 false sampleState).map
      (fun r => (r.oldSolVector, r.oldTimeStep)) =
      some (match (sampleEnv TimeScheme.implicit_nonlinear).scheme with
        | TimeScheme.implicit_linear => (sampleState.solVector, 2)
        | TimeScheme.implicit_nonlinear => (sampleState.oldSolVector, sampleState.oldTimeStep)
        | TimeScheme.other => (sampleState.oldSolVector, sampleState.oldTimeStep)) :=
  ⟨rfl, claim4_amended (sampleEnv TimeScheme.implicit_nonlinear) 2 false sampleState rfl⟩

/-! ### Claim C7 -/

/-- Claim C7: the assembled system matrix (in the integrator's assemble
member and in implicitLinear alike) equals dt times the stiffness matrix
everywhere except the top-left velocity-velocity block of size numDofsVel,
which equals the mass matrix plus dt times theta times the
velocity-velocity stiffness block; pressure rows and columns carry no mass
or theta-blend contribution. -/
theorem claim7_blockStructure (env : NsEnv) (s : NsState) (sol : Vec) (fd : List Vec)
    (A M : Mat) (dt theta : ℚ) (nv i j : ℕ) :
    systemMatrixOf (scaleMat dt A) M theta nv i j =
      (if i < nv ∧ j < nv then M i j + dt * theta * A i j else dt * A i j) ∧
    (assembleTI env s sol fd).systemMatrix =
      systemMatrixOf (scaleMat s.tStep ((assembleTI env s sol fd).stiffMatrix))
        env.massMatrix env.theta env.numDofsVel ∧
    (implicitLinear env s).systemMatrix =
      systemMatrixOf (scaleMat s.tStep ((implicitLinear env s).stiffMatrix))
        env.massMatrix env.theta env.numDofsVel := by
  refine ⟨?_, rfl, rfl⟩
  unfold systemMatrixOf tempVelocityBlock scaleMat
  by_cases hi : i < nv <;> by_cases hj : j < nv <;> (simp [hi, hj]; try ring)

/-! ### Claim C9 -/

/-- Claim C9: in the implicit-nonlinear scheme the constant previous-step
part of the right-hand side is computed exactly once per makeTimeStep,
before the nonlinear loop starts (first conjunct: the constRHS stored after
the whole step is the pre-loop value); the loop never changes it (second
conjunct: an arbitrary number of loop iterations preserves constRHS); and
every nonlinear iteration's assembled right-hand side equals dt times theta
times the stiffness right-hand side at the trial solution, plus constRHS
(third conjunct). -/
theorem claim9_constRHS_once (env : NsEnv) (s st : NsState) (k : ℕ)
    (trial sol : Vec) (fd : List Vec) :
    (implicitNonlinear env s).constRHS = implicitNonlinearConstRHS env s ∧
    ((newtonLoop env k st trial).1).constRHS = st.constRHS ∧
    (assembleTI env st sol fd).systemRhs =
      vecAdd (vecScale (st.tStep * env.theta)
        (env.stiffRhsAt st.assemblyMode
          (applyALE st.flagALE env.patchesALE env.aleVel (env.constructVel sol fd))
          (env.constructPres sol fd))) st.constRHS := by
  exact ⟨(newtonLoop_keeps env env.newtonIters _ s.solVector).2.2.2,
    (newtonLoop_keeps env k st trial).2.2.2, rfl⟩

/-! ### Claim C8 -/

/-- One ALE subtraction step leaves every patch other than its source
patch unchanged. -/
lemma alePatchSub_getD_ne (ale vels : List Vec) (pr : ℕ × ℕ) (r : ℕ)
    (h : pr.1 ≠ r) : (alePatchSub ale vels pr).getD r [] = vels.getD r [] := by
  unfold alePatchSub
  rw [List.getD_eq_getElem?_getD, List.getElem?_set_ne h, ← List.getD_eq_getElem?_getD]

/-- The ALE subtraction fold leaves every patch that is not a source patch
of the correspondence list unchanged. -/
lemma foldl_alePatchSub_not_mem (ale : List Vec) :
    ∀ (links : List (ℕ × ℕ)) (vels : List Vec) (r : ℕ),
      r ∉ links.map Prod.fst →
      (links.foldl (alePatchSub ale) vels).getD r [] = vels.getD r [] := by
  intro links
  induction links with
  | nil => intro vels r _; rfl
  | cons a rest ih =>
    intro vels r h
    rw [List.map_cons, List.mem_cons] at h
    push_neg at h
    rw [List.foldl_cons, ih _ _ h.2, alePatchSub_getD_ne ale vels a r (Ne.symm h.1)]

/-- On a correspondence list with pairwise distinct source patches, the ALE
subtraction fold subtracts, on each listed source patch, exactly the mesh
velocity of the corresponding ALE patch. -/
lemma foldl_alePatchSub_mem (ale : List Vec) :
    ∀ (links : List (ℕ × ℕ)) (vels : List Vec) (p q : ℕ),
      (links.map Prod.fst).Nodup → (p, q) ∈ links → p < vels.length →
      (links.foldl (alePatchSub ale) vels).getD p [] =
        vecSub (vels.getD p []) (ale.getD q []) := by
  intro links
  induction links with
  | nil => intro vels p q _ hmem _; simp at hmem
  | cons a rest ih =>
    intro vels p q hnd hmem hlen
    rw [List.map_cons] at hnd
    have hnd1 : a.1 ∉ rest.map Prod.fst := (List.nodup_cons.1 hnd).1
    have hnd2 : (rest.map Prod.fst).Nodup := (List.nodup_cons.1 hnd).2
    rw [List.foldl_cons]
    rcases List.mem_cons.1 hmem with heq | hmem2
    · subst heq
      rw [foldl_alePatchSub_not_mem ale rest _ p (by simpa using hnd1)]
      unfold alePatchSub
      rw [List.getD_eq_getElem?_getD, List.getElem?_set_self hlen]
      rfl
    · have hap : a.1 ≠ p := by
        intro hc
        exact hnd1 (List.mem_map.2 ⟨(p, q), hmem2, hc.symm⟩)
      rw [ih (alePatchSub ale vels a) p q hnd2 hmem2
          (by simpa [alePatchSub, List.length_set] using hlen),
        alePatchSub_getD_ne ale vels a p hap]

/-- Claim C8: with ALE coupling enabled, every call of the integrator's
assemble member passes to the stiffness assembly the velocity with the mesh
velocity already subtracted (first conjunct: the assembled stiffness is
taken at the ALE-corrected field, for every trial vector, hence for every
nonlinear iteration); the correction subtracts the mesh velocity of the
paired ALE patch on exactly the listed source patches (second conjunct) and
changes no other patch (third conjunct). -/
theorem claim8_aleEveryAssemble (env : NsEnv) (s : NsState) (sol : Vec) (fd : List Vec)
    (links : List (ℕ × ℕ)) (ale vels : List Vec) (p q r : ℕ)
    (hnd : (links.map Prod.fst).Nodup) (hmem : (p, q) ∈ links) (hlen : p < vels.length)
    (hr : r ∉ links.map Prod.fst) :
    (assembleTI env s sol fd).stiffMatrix =
      env.stiffMatAt s.assemblyMode
        (applyALE s.flagALE env.patchesALE env.aleVel (env.constructVel sol fd))
        (env.constructPres sol fd) ∧
    (applyALE true links ale vels).getD p [] = vecSub (vels.getD p []) (ale.getD q []) ∧
    (applyALE true links ale vels).getD r [] = vels.getD r [] := by
  refine ⟨rfl, ?_, ?_⟩
  · unfold applyALE
    rw [if_pos rfl]
    exact foldl_alePatchSub_mem ale links vels p q hnd hmem hlen
  · unfold applyALE
    rw [if_pos rfl]
    exact foldl_alePatchSub_not_mem ale links vels r hr

/-- Witness for claim C8 on a concrete three-patch velocity field with a
two-pair ALE correspondence. -/
theorem claim8_witness :
    ((([(1, 0), (2, 1)] : List (ℕ × ℕ)).map Prod.fst).Nodup ∧
      ((2, 1) ∈ ([(1, 0), (2, 1)] : List (ℕ × ℕ))) ∧
      2 < ([[1], [2], [3]] : List Vec).length ∧
      0 ∉ (([(1, 0), (2, 1)] : List (ℕ × ℕ)).map Prod.fst)) ∧
    ((assembleTI (sampleEnv TimeScheme.implicit_linear) sampleState [] []).stiffMatrix =
      (sampleEnv TimeScheme.implicit_linear).stiffMatAt sampleState.assemblyMode
        (applyALE sampleState.flagALE (sampleEnv TimeScheme.implicit_linear).patchesALE
          (sampleEnv TimeScheme.implicit_linear).aleVel
          ((sampleEnv TimeScheme.implicit_linear).constructVel [] []))
        ((sampleEnv TimeScheme.implicit_linear).constructPres [] []) ∧
    (applyALE true [(1, 0), (2, 1)] [[10], [20]] [[1], [2], [3]]).getD 2 [] =
      vecSub (([[1], [2], [3]] : List Vec).getD 2 []) (([[10], [20]] : List Vec).getD 1 []) ∧
    (applyALE true [(1, 0), (2, 1)] [[10], [20]] [[1], [2], [3]]).getD 0 [] =
      ([[1], [2], [3]] : List Vec).getD 0 []) :=
  ⟨⟨by decide, by decide, by decide, by decide⟩,
    claim8_aleEveryAssemble (sampleEnv TimeScheme.implicit_linear) sampleState [] []
      [(1, 0), (2, 1)] [[10], [20]] [[1], [2], [3]] 2 1 0
      (by decide) (by decide) (by decide) (by decide)⟩

/-! ### Coupler-loop unfolding lemmas -/

/-- One unfolding of the coupler loop when the mesh check passes: the
iteration runs the structural, mesh-motion and fluid steps with the common
effective step size and recurses at the advanced time. -/
lemma couplerTrace_unfold_true (tsp ts : ℚ) (wu : Bool) (av : ℕ → Bool)
    (fuel i : ℕ) (st : ℚ) (h : st < tsp) :
    couplerTrace tsp ts wu av (fuel + 1) i st true =
      CEvent.check i true :: CEvent.beam i (effStep wu st ts) ::
      CEvent.aleSolve i (av i) (effStep wu st ts) ::
      CEvent.fluid i (effStep wu st ts) ::
      couplerTrace tsp ts wu av fuel (i + 1) (st + effStep wu st ts) (av i) := by
  simp [couplerTrace, h]

/-- One unfolding of the coupler loop when the mesh check fails: the loop
breaks, recording only the failed check and the halt. -/
lemma couplerTrace_unfold_false (tsp ts : ℚ) (wu : Bool) (av : ℕ → Bool)
    (fuel i : ℕ) (st : ℚ) (h : st < tsp) :
    couplerTrace tsp ts wu av (fuel + 1) i st false =
      [CEvent.check i false, CEvent.halt i] := by
  simp [couplerTrace, h]

/-- One unfolding of the coupler loop when the simulation time has reached
the time span: the loop ends with no further event. -/
lemma couplerTrace_unfold_stop (tsp ts : ℚ) (wu : Bool) (av : ℕ → Bool)
    (fuel i : ℕ) (st : ℚ) (v : Bool) (h : ¬ st < tsp) :
    couplerTrace tsp ts wu av (fuel + 1) i st v = [] := by
  simp [couplerTrace, h]

/-- Every event of a coupler trace started at iteration index i carries an
iteration index of at least i. -/
lemma couplerTrace_idx_ge (tsp ts : ℚ) (wu : Bool) (av : ℕ → Bool) :
    ∀ (fuel i : ℕ) (st : ℚ) (v : Bool) (e : CEvent),
      e ∈ couplerTrace tsp ts wu av fuel i st v → i ≤ e.idx := by
  intro fuel
  induction fuel with
  | zero => intro i st v e he; simp [couplerTrace] at he
  | succ n ih =>
    intro i st v e he
    by_cases hst : st < tsp
    · cases v with
      | false =>
        rw [couplerTrace_unfold_false tsp ts wu av n i st hst] at he
        rcases List.mem_cons.1 he with rfl | he2
        · exact le_refl i
        · rcases List.mem_cons.1 he2 with rfl | he3
          · exact le_refl i
          · simp at he3
      | true =>
        rw [couplerTrace_unfold_true tsp ts wu av n i st hst] at he
        rcases List.mem_cons.1 he with rfl | he2
        · exact le_refl i
        rcases List.mem_cons.1 he2 with rfl | he3
        · exact le_refl i
        rcases List.mem_cons.1 he3 with rfl | he4
        · exact le_refl i
        rcases List.mem_cons.1 he4 with rfl | he5
        · exact le_refl i
        · exact le_trans (Nat.le_succ i) (ih (i + 1) _ _ e he5)
    · rw [couplerTrace_unfold_stop tsp ts wu av n i st v hst] at he
      simp at he

/-! ### Claim C1 -/

/-- Counterexample to claim C1: in a concrete run (time span three, step
one, no warm-up) where the mesh-motion solve of macro iteration zero
produces an invalid solution, the fluid step of that same iteration is
still executed: the validity check happens only at the top of the next
iteration, so the fluid time step is taken once with an invalid mesh-motion
solution, contradicting the claim. -/
theorem claim1_counterexample :
    CEvent.aleSolve 0 false 1 ∈
      couplerTrace 3 1 false (fun _ => false) 3 0 0 true ∧
    CEvent.fluid 0 1 ∈
      couplerTrace 3 1 false (fun _ => false) 3 0 0 true := by
  constructor <;> decide

/-- Claim C1 as amended: the coupler checks the mesh-motion solution at the
top of each macro iteration (the solution produced by the previous
iteration). Whenever the check of iteration i reports invalidity, the
coupler halts at iteration i before its structural and fluid steps: the
trace records the halt for i and contains no beam and no fluid event of
iteration i. Detection is thus one iteration late: the fluid step of the
iteration that produced the invalid solution has already run (see the
counterexample), and the halt protects only the following iteration. -/
theorem claim1_amended (tsp ts : ℚ) (wu : Bool) (av : ℕ → Bool) :
    ∀ (fuel i0 : ℕ) (st : ℚ) (v : Bool) (i : ℕ) (t : ℚ),
      CEvent.check i false ∈ couplerTrace tsp ts wu av fuel i0 st v →
      CEvent.halt i ∈ couplerTrace tsp ts wu av fuel i0 st v ∧
      CEvent.beam i t ∉ couplerTrace tsp ts wu av fuel i0 st v ∧
      CEvent.fluid i t ∉ couplerTrace tsp ts wu av fuel i0 st v := by
  intro fuel
  induction fuel with
  | zero => intro i0 st v i t h; simp [couplerTrace] at h
  | succ n ih =>
    intro i0 st v i t h
    by_cases hst : st < tsp
    · cases v with
      | false =>
        rw [couplerTrace_unfold_false tsp ts wu av n i0 st hst] at h ⊢
        rcases List.mem_cons.1 h with h0 | h0
        · injection h0 with hi hv
          subst hi
          exact ⟨by simp, by simp, by simp⟩
        · rcases List.mem_cons.1 h0 with h1 | h1
          · exact absurd h1 (by simp)
          · simp at h1
      | true =>
        rw [couplerTrace_unfold_true tsp ts wu av n i0 st hst] at h ⊢
        simp only [List.mem_cons] at h
        rcases h with h0 | h0 | h0 | h0 | hrest
        · exact absurd h0 (by simp)
        · exact absurd h0 (by simp)
        · exact absurd h0 (by simp)
        · exact absurd h0 (by simp)
        · have hge : i0 + 1 ≤ i :=
            couplerTrace_idx_ge tsp ts wu av n (i0 + 1) _ _ _ hrest
          obtain ⟨h1, h2, h3⟩ := ih (i0 + 1) (st + effStep wu st ts) (av i0) i t hrest
          refine ⟨?_, ?_, ?_⟩
          · simp only [List.mem_cons]
            exact Or.inr (Or.inr (Or.inr (Or.inr h1)))
          · simp only [List.mem_cons]
            push_neg
            refine ⟨by simp, ?_, by simp, by simp, h2⟩
            intro hc
            injection hc with hi ht
            omega
          · simp only [List.mem_cons]
            push_neg
            refine ⟨by simp, by simp, by simp, ?_, h3⟩
            intro hc
            injection hc with hi ht
            omega
    · rw [couplerTrace_unfold_stop tsp ts wu av n i0 st v hst] at h
      simp at h

/-- Witness for the amended claim C1: a concrete run whose first check
already reports invalidity halts at once; neither the structural nor the
fluid step of that iteration appears in the trace. -/
theorem claim1_witness :
    CEvent.check 0 false ∈ couplerTrace 3 1 false (fun _ => false) 2 0 0 false ∧
    (CEvent.halt 0 ∈ couplerTrace 3 1 false (fun _ => false) 2 0 0 false ∧
      CEvent.beam 0 1 ∉ couplerTrace 3 1 false (fun _ => false) 2 0 0 false ∧
      CEvent.fluid 0 1 ∉ couplerTrace 3 1 false (fun _ => false) 2 0 0 false) :=
  ⟨by decide, claim1_amended 3 1 false (fun _ => false) 2 0 0 false 0 1 (by decide)⟩

/-! ### Claim C6 -/

/-- Claim C6: in a macro iteration with warm-up enabled and simulation time
below two the effective step size equals the coarse warm-up value one
tenth; with warm-up disabled, or at simulation time two or beyond, it
equals the configured fine step size; and one unfolding of the coupler
loop shows that the same effective step size is handed to all three
sub-solver invocations (beam, mesh-motion, fluid) of the iteration. -/
theorem claim6_warmUpStep :
    (∀ (stime ts : ℚ), stime < 2 → effStep true stime ts = 1 / 10) ∧
    (∀ (stime ts : ℚ), effStep false stime ts = ts) ∧
    (∀ (stime ts : ℚ), 2 ≤ stime → effStep true stime ts = ts) ∧
    (∀ (tsp ts : ℚ) (wu : Bool) (av : ℕ → Bool) (fuel i : ℕ) (st : ℚ), st < tsp →
      couplerTrace tsp ts wu av (fuel + 1) i st true =
        CEvent.check i true :: CEvent.beam i (effStep wu st ts) ::
        CEvent.aleSolve i (av i) (effStep wu st ts) ::
        CEvent.fluid i (effStep wu st ts) ::
        couplerTrace tsp ts wu av fuel (i + 1) (st + effStep wu st ts) (av i)) := by
  refine ⟨?_, ?_, ?_, ?_⟩
  · intro stime ts h
    simp [effStep, h]
  · intro stime ts
    simp [effStep]
  · intro stime ts h
    simp [effStep, not_lt.2 h]
  · intro tsp ts wu av fuel i st h
    exact couplerTrace_unfold_true tsp ts wu av fuel i st h

/-- Witness for claim C6 at concrete times and step sizes. -/
theorem claim6_witness :
    effStep true 1 (1 / 2) = 1 / 10 ∧
    effStep false 1 (1 / 2) = 1 / 2 ∧
    effStep true 3 (1 / 2) = 1 / 2 ∧
    couplerTrace 3 1 false (fun _ => false) 1 0 0 true =
      CEvent.check 0 true :: CEvent.beam 0 (effStep false 0 1) ::
      CEvent.aleSolve 0 false (effStep false 0 1) ::
      CEvent.fluid 0 (effStep false 0 1) ::
      couplerTrace 3 1 false (fun _ => false) 0 1 (0 + effStep false 0 1) false :=
  ⟨claim6_warmUpStep.1 1 (1 / 2) (by norm_num),
   claim6_warmUpStep.2.1 1 (1 / 2),
   claim6_warmUpStep.2.2.1 3 (1 / 2) (by norm_num),
   claim6_warmUpStep.2.2.2 3 1 false (fun _ => false) 0 0 0 (by norm_num)⟩

/-! ### Claim C5 -/

/-- Counterexample to claim C5: the multiplier the coupler actually applies
to the saved inflow values at simulation time zero is not zero. The code
evaluates the cosine ramp at the end-of-step time simTime plus tStep, so
with simulation time zero and step one tenth the applied multiplier is one
half of one minus the cosine of pi over twenty, which is strictly positive,
contradicting the claim that the multiplier is zero at simulation time
zero. -/
theorem claim5_counterexample : appliedInflowScale 0 (1 / 10) ≠ 0 := by
  unfold appliedInflowScale inflowRampFactor
  intro h0
  have harg : Real.pi * (0 + 1 / 10) / 2 = Real.pi / 20 := by ring
  rw [harg] at h0
  have hc : Real.cos (Real.pi / 20) = 1 := by linarith
  have hpi := Real.pi_pos
  rw [Real.cos_eq_one_iff_of_lt_of_lt (by linarith) (by linarith)] at hc
  linarith

/-- Claim C5 as amended: the ramp factor, as a function of its time
argument, evaluates to one half of one minus the cosine of zero, that is
zero, at argument zero, and to one half of one minus the cosine of pi, that
is one, at argument two. The coupler evaluates this function at the
end-of-step time simTime plus tStep (so the iteration advancing to
simulation time two applies the full multiplier one), and applies it only
while the iteration's simulation time is below two. -/
theorem claim5_amended :
    inflowRampFactor 0 = 0 ∧
    inflowRampFactor 2 = 1 ∧
    (∀ stime h : ℝ, stime < 2 →
      inflowBCApplied stime h = some (inflowRampFactor (stime + h))) ∧
    (∀ stime h : ℝ, 2 ≤ stime → inflowBCApplied stime h = none) := by
  refine ⟨?_, ?_, ?_, ?_⟩
  · simp [inflowRampFactor]
  · unfold inflowRampFactor
    have h2 : Real.pi * 2 / 2 = Real.pi := by ring
    rw [h2, Real.cos_pi]
    norm_num
  · intro stime h hlt
    simp [inflowBCApplied, appliedInflowScale, hlt]
  · intro stime h hge
    simp [inflowBCApplied, not_lt.2 hge]

/-- Witness for the amended claim C5 at concrete times. -/
theorem claim5_witness :
    inflowRampFactor 0 = 0 ∧
    inflowRampFactor 2 = 1 ∧
    inflowBCApplied 0 (1 / 10) = some (inflowRampFactor (0 + 1 / 10)) ∧
    inflowBCApplied 2 (1 / 10) = none :=
  ⟨claim5_amended.1, claim5_amended.2.1,
   claim5_amended.2.2.1 0 (1 / 10) (by norm_num),
   claim5_amended.2.2.2 2 (1 / 10) (by norm_num)⟩

end GsElasticity
